import Mathlib

/-!
Shallow embedding of the Monte Carlo profit-simulation repository
(`flyweight.py`, `montecarloServidor.py`, `montecarloProductor.py`,
`montecarloCliente.py`, `montecarloScenarys.py`).

Python floats are modelled as rationals (`ℚ`), so every arithmetic identity
below is exact.  The process-wide random source (`np.random`) is modelled as
an explicit `RandomSource` of per-call draw streams together with call
counters (`RandomState`): each `generar_*` call reads the next draw of its
stream and advances its counter, mirroring one call to the corresponding
`np.random` primitive.  The bounded FIFO `queue.Queue` is modelled as the
list of messages pushed through it in FIFO order, with the sentinel `None`
rendered as `Option.none`.
-/

/-- `flyweight.CostFlyweight`: frozen dataclass holding the three fixed
costs (`precio_venta`, `costo_admin`, `costo_publicidad`). -/
structure CostFlyweight where
  precio_venta : ℚ
  costo_admin : ℚ
  costo_publicidad : ℚ
deriving DecidableEq, Repr

/-- `flyweight.FlyweightFactory`: its `_flyweights` dict, modelled as the
association list of (key, flyweight) entries in insertion order. -/
structure FlyweightFactory where
  flyweights : List ((ℚ × ℚ × ℚ) × CostFlyweight)
deriving DecidableEq, Repr

/-- `FlyweightFactory.__init__`: empty storage. -/
def FlyweightFactory.nuevo : FlyweightFactory := ⟨[]⟩

/-- Membership test / lookup of a key in the `_flyweights` dict. -/
def buscarClave : List ((ℚ × ℚ × ℚ) × CostFlyweight) → (ℚ × ℚ × ℚ) → Option CostFlyweight
  | [], _ => none
  | (k, fw) :: resto, clave => if k = clave then some fw else buscarClave resto clave

/-- `FlyweightFactory.get_flyweight`: if the key `(precio_venta, costo_admin,
costo_publicidad)` is absent, store a fresh `CostFlyweight` under it; return
the stored flyweight together with the (possibly updated) factory. -/
def FlyweightFactory.get_flyweight (f : FlyweightFactory)
    (precio_venta costo_admin costo_publicidad : ℚ) : CostFlyweight × FlyweightFactory :=
  let clave := (precio_venta, costo_admin, costo_publicidad)
  match buscarClave f.flyweights clave with
  | some fw => (fw, f)
  | none =>
      let fw : CostFlyweight := ⟨precio_venta, costo_admin, costo_publicidad⟩
      (fw, ⟨f.flyweights ++ [(clave, fw)]⟩)

/-- The three draw streams of the process-wide random source: the index
chosen by the k-th `np.random.choice` call, the unit-interval position of
the k-th `np.random.uniform` call, and the raw (unclipped) value of the
k-th `np.random.normal` call. -/
structure RandomSource where
  c1_idx : ℕ → ℕ
  c2_unit : ℕ → ℚ
  x_raw : ℕ → ℚ

/-- The random source together with how many calls each primitive has
received so far. -/
structure RandomState where
  src : RandomSource
  c1_calls : ℕ
  c2_calls : ℕ
  x_calls : ℕ

/-- `MontecarloServidor.__init__` (identical in `montecarloServidor.py` and
`montecarloProductor.py`): the fixed distribution parameters. -/
structure MontecarloServidor where
  c1_valores : List ℚ
  c1_prob : List ℚ
  c2_min : ℚ
  c2_max : ℚ
  x_media : ℚ
  x_desv : ℚ
  x_min : ℚ
  x_max : ℚ

/-- The server as constructed by `MontecarloServidor.__init__`. -/
def MontecarloServidor.nuevo : MontecarloServidor where
  c1_valores := [10000, 13000, 16000, 19000, 22000]
  c1_prob := [1/10, 3/10, 3/10, 2/10, 1/10]
  c2_min := 25000
  c2_max := 35000
  x_media := 14500
  x_desv := 4000
  x_min := 9000
  x_max := 28500

/-- `np.clip(x, lo, hi)`: `min (max x lo) hi`. -/
def npClip (x lo hi : ℚ) : ℚ := min (max x lo) hi

/-- `MontecarloServidor.generar_c1`: `np.random.choice(c1_valores, p=c1_prob)`
returns one element of `c1_valores`; the source's index stream says which. -/
def MontecarloServidor.generar_c1 (srv : MontecarloServidor) (r : RandomState) :
    ℚ × RandomState :=
  (srv.c1_valores.getD (r.src.c1_idx r.c1_calls) 0,
   { r with c1_calls := r.c1_calls + 1 })

/-- `MontecarloServidor.generar_c2`: `np.random.uniform(c2_min, c2_max)`,
i.e. `c2_min + u * (c2_max - c2_min)` for the next unit draw `u`. -/
def MontecarloServidor.generar_c2 (srv : MontecarloServidor) (r : RandomState) :
    ℚ × RandomState :=
  (srv.c2_min + r.src.c2_unit r.c2_calls * (srv.c2_max - srv.c2_min),
   { r with c2_calls := r.c2_calls + 1 })

/-- `MontecarloServidor.generar_x`: draw `np.random.normal(x_media, x_desv)`
(the next raw draw of the source) and clamp it with `np.clip` into
`[x_min, x_max]`. -/
def MontecarloServidor.generar_x (srv : MontecarloServidor) (r : RandomState) :
    ℚ × RandomState :=
  let x := r.src.x_raw r.x_calls
  (npClip x srv.x_min srv.x_max, { r with x_calls := r.x_calls + 1 })

/-- A sample triple (C1, C2, X). -/
abbrev Muestra := ℚ × ℚ × ℚ

/-- A message on the shared queue: a sample, or the `None` sentinel. -/
abbrev Mensaje := Option Muestra

/-- `MontecarloServidor.generar_muestra`: one (C1, C2, X) triple, generated
in that fixed order. -/
def MontecarloServidor.generar_muestra (srv : MontecarloServidor) (r : RandomState) :
    Muestra × RandomState :=
  let (c1, r1) := srv.generar_c1 r
  let (c2, r2) := srv.generar_c2 r1
  let (x, r3) := srv.generar_x r2
  ((c1, c2, x), r3)

/-- The `for _ in range(iteraciones): cola.put(self.generar_muestra())` loop
of `MontecarloServidor.hilo_productor`: pushes one sample per step onto the
tail of the queue. -/
def productorLoop (srv : MontecarloServidor) :
    ℕ → RandomState → List Mensaje → RandomState × List Mensaje
  | 0, r, cola => (r, cola)
  | n + 1, r, cola =>
      let (m, r1) := srv.generar_muestra r
      productorLoop srv n r1 (cola ++ [some m])

/-- `MontecarloServidor.hilo_productor`: run the production loop for
`range(iteraciones)` steps (empty when `iteraciones ≤ 0`, as in Python),
then push the `None` sentinel once. -/
def MontecarloServidor.hilo_productor (srv : MontecarloServidor) (r : RandomState)
    (cola : List Mensaje) (iteraciones : ℤ) : RandomState × List Mensaje :=
  let (r1, cola1) := productorLoop srv iteraciones.toNat r cola
  (r1, cola1 ++ [none])

/-- `MontecarloCliente`: the consumer's state — its server reference, the
fixed-cost flyweight, and the accumulated `utilidades` list. -/
structure MontecarloCliente where
  servidor : MontecarloServidor
  costos : CostFlyweight
  utilidades : List ℚ

/-- `MontecarloCliente.__init__`: fresh client with empty `utilidades`. -/
def MontecarloCliente.nuevo (servidor : MontecarloServidor) (costos : CostFlyweight) :
    MontecarloCliente :=
  ⟨servidor, costos, []⟩

/-- `MontecarloCliente.calcular_utilidad`: margin `(PV - C1 - C2)` first,
then times demand `X`, then minus the fixed overhead `(CA + CB)`. -/
def MontecarloCliente.calcular_utilidad (cl : MontecarloCliente) (c1 c2 x : ℚ) : ℚ :=
  let margen := cl.costos.precio_venta - c1 - c2
  let utilidad := margen * x - (cl.costos.costo_admin + cl.costos.costo_publicidad)
  utilidad

/-- `MontecarloCliente.consumir`: pop messages off the queue in FIFO order;
on a sample, append its utility to `self.utilidades`; on the `None`
sentinel, stop.  (The Python loop blocks forever on an empty queue; the
`[]` case below is unreachable on any queue the producer filled, since the
producer always ends with the sentinel.) -/
def MontecarloCliente.consumir (cl : MontecarloCliente) : List Mensaje → MontecarloCliente
  | [] => cl
  | none :: _ => cl
  | some (c1, c2, x) :: resto =>
      MontecarloCliente.consumir
        { cl with utilidades := cl.utilidades ++ [cl.calcular_utilidad c1 c2 x] } resto

/-- The `{"min", "max", "mean"}` result dict of a simulation run. -/
structure Resumen where
  minimo : ℚ
  maximo : ℚ
  promedio : ℚ
deriving DecidableEq, Repr

/-- Python `min(xs)` over a (nonempty) list; the `[]` case (a `ValueError`
in Python) is guarded against by the callers' emptiness check. -/
def pyMin : List ℚ → ℚ
  | [] => 0
  | h :: t => t.foldl min h

/-- Python `max(xs)` over a (nonempty) list, same guard as `pyMin`. -/
def pyMax : List ℚ → ℚ
  | [] => 0
  | h :: t => t.foldl max h

/-- The summary block at the end of both runners: zero-filled when
`utilidades` is empty, otherwise `{min, max, sum/len}`. -/
def resumenDe (utilidades : List ℚ) : Resumen :=
  if utilidades = [] then ⟨0, 0, 0⟩
  else ⟨pyMin utilidades, pyMax utilidades, utilidades.sum / utilidades.length⟩

/-- `MontecarloCliente.ejecutar_simulacion_concurrente`: create an empty
queue, let the producer thread fill it (`hilo_productor`, which pushes all
samples then the sentinel), consume it in FIFO order, then compute the
summary from the accumulated utilities. -/
def MontecarloCliente.ejecutar_simulacion_concurrente (cl : MontecarloCliente)
    (r : RandomState) (iteraciones : ℤ) : Resumen × MontecarloCliente × RandomState :=
  let (r1, cola) := cl.servidor.hilo_productor r [] iteraciones
  let cl1 := cl.consumir cola
  (resumenDe cl1.utilidades, cl1, r1)

/-- The accumulation loop of the sequential runner: one synchronous
draw-evaluate-append cycle per trial. -/
def secuencialLoop (cl : MontecarloCliente) :
    ℕ → RandomState → List ℚ → RandomState × List ℚ
  | 0, r, acc => (r, acc)
  | n + 1, r, acc =>
      let (m, r1) := cl.servidor.generar_muestra r
      secuencialLoop cl n r1 (acc ++ [cl.calcular_utilidad m.1 m.2.1 m.2.2])

/-- Modelled from the spec: `MontecarloCliente.ejecutar_simulacion`, the
sequential runner that `montecarloScenarys.ejecutar_simulacion` calls but
which is missing from the repository's sources.  Per spec §4.4 sequential
mode: "for each of N trials, synchronously obtain a sample, evaluate it,
accumulate the result. No concurrency", followed by the same summary
computation (§4.4) with the same N = 0 degenerate case. -/
def MontecarloCliente.ejecutar_simulacion (cl : MontecarloCliente)
    (r : RandomState) (iteraciones : ℤ) : Resumen × MontecarloCliente × RandomState :=
  let (r1, acc) := secuencialLoop cl iteraciones.toNat r []
  let cl1 := { cl with utilidades := cl.utilidades ++ acc }
  (resumenDe cl1.utilidades, cl1, r1)

/-- The declared parameter names of `FlyweightFactory.get_flyweight`. -/
def parametrosGetFlyweight : List String := ["precio_venta", "costo_admin", "costo_publicidad"]

/-- Outcome of `montecarloCliente.main`: either a `TypeError` raised while
binding keyword arguments (carrying the offending keyword), or a completed
run's summary. -/
inductive ResultadoMain where
  | typeError (kw : String)
  | ok (resultados : Resumen)
deriving Repr

/-- Python keyword binding for a keywords-only call: the first supplied
keyword that is not a declared parameter name raises
`TypeError: unexpected keyword argument`; otherwise each declared
parameter must be bound by exactly one supplied keyword. -/
def enlazarKwargs (params : List String) (kwargs : List (String × ℚ)) :
    Except String (List ℚ) :=
  match kwargs.find? (fun kv => !params.contains kv.1) with
  | some kv => Except.error kv.1
  | none =>
      match params.mapM (fun p => (kwargs.find? (fun kv => kv.1 = p)).map Prod.snd) with
      | some vals => Except.ok vals
      | none => Except.error "missing"

/-- `montecarloCliente.main`: builds the factory, calls
`factory.get_flyweight(pv=70000.0, ca=160_000_000.0, cb=80_000_000.0)` —
a keywords-only call bound against `get_flyweight`'s parameter list — and,
when that binding succeeds, runs the concurrent simulation with 10000
iterations on a fresh client. -/
def mainCliente (r : RandomState) : ResultadoMain :=
  let factory := FlyweightFactory.nuevo
  match enlazarKwargs parametrosGetFlyweight
      [("pv", 70000), ("ca", 160000000), ("cb", 80000000)] with
  | Except.error kw => ResultadoMain.typeError kw
  | Except.ok vals =>
      let (costos, _) :=
        factory.get_flyweight (vals.getD 0 0) (vals.getD 1 0) (vals.getD 2 0)
      let servidor := MontecarloServidor.nuevo
      let cliente := MontecarloCliente.nuevo servidor costos
      let (resultados, _, _) := cliente.ejecutar_simulacion_concurrente r 10000
      ResultadoMain.ok resultados

/-- The sequence of samples the server generates over `n` successive
`generar_muestra` calls starting from random state `r`. -/
def muestrasDesde (srv : MontecarloServidor) : ℕ → RandomState → List Muestra
  | 0, _ => []
  | n + 1, r => (srv.generar_muestra r).1 :: muestrasDesde srv n (srv.generar_muestra r).2

/-- The random state after `n` successive `generar_muestra` calls. -/
def estadoTras (srv : MontecarloServidor) : ℕ → RandomState → RandomState
  | 0, r => r
  | n + 1, r => estadoTras srv n (srv.generar_muestra r).2

theorem muestrasDesde_length (srv : MontecarloServidor) (n : ℕ) (r : RandomState) :
    (muestrasDesde srv n r).length = n := by
  induction n generalizing r with
  | zero => rfl
  | succ n ih => simp [muestrasDesde, ih]

theorem productorLoop_eq (srv : MontecarloServidor) (n : ℕ) (r : RandomState)
    (cola : List Mensaje) :
    productorLoop srv n r cola =
      (estadoTras srv n r, cola ++ (muestrasDesde srv n r).map some) := by
  induction n generalizing r cola with
  | zero => simp [productorLoop, estadoTras, muestrasDesde]
  | succ n ih =>
      rcases h : srv.generar_muestra r with ⟨m, r1⟩
      simp [productorLoop, estadoTras, muestrasDesde, h, ih]

theorem calcular_utilidad_solo_costos (srv srv2 : MontecarloServidor)
    (costos : CostFlyweight) (us us2 : List ℚ) (c1 c2 x : ℚ) :
    MontecarloCliente.calcular_utilidad ⟨srv, costos, us⟩ c1 c2 x =
      MontecarloCliente.calcular_utilidad ⟨srv2, costos, us2⟩ c1 c2 x := rfl

theorem consumir_map_some (srv : MontecarloServidor) (costos : CostFlyweight)
    (us : List ℚ) (l : List Muestra) (resto : List Mensaje) :
    MontecarloCliente.consumir ⟨srv, costos, us⟩ (l.map some ++ none :: resto) =
      ⟨srv, costos,
       us ++ l.map (fun m => MontecarloCliente.calcular_utilidad ⟨srv, costos, us⟩ m.1 m.2.1 m.2.2)⟩ := by
  induction l generalizing us with
  | nil => simp [MontecarloCliente.consumir]
  | cons m t ih =>
      rcases m with ⟨c1, c2, x⟩
      simp only [List.map_cons, List.cons_append, MontecarloCliente.consumir, List.append_eq]
      rw [ih]
      simp
      intro a b c _
      rfl

theorem secuencialLoop_eq (srv : MontecarloServidor) (costos : CostFlyweight)
    (us : List ℚ) (n : ℕ) (r : RandomState) (acc : List ℚ) :
    secuencialLoop ⟨srv, costos, us⟩ n r acc =
      (estadoTras srv n r,
       acc ++ (muestrasDesde srv n r).map
         (fun m => MontecarloCliente.calcular_utilidad ⟨srv, costos, us⟩ m.1 m.2.1 m.2.2)) := by
  induction n generalizing r acc with
  | zero => simp [secuencialLoop, estadoTras, muestrasDesde]
  | succ n ih =>
      rcases h : srv.generar_muestra r with ⟨m, r1⟩
      simp [secuencialLoop, estadoTras, muestrasDesde, h, ih]

/-- C1: `calcular_utilidad` returns `(sale_price - labor_cost - component_cost)
* demand - (admin_cost + advertising_cost)`, margin first, then times demand,
then minus the fixed overhead.  The operation is embedded as a pure function
of the client's (read-only) state, mirroring that the Python method only
reads `self.costos` and writes nothing. -/
theorem calcular_utilidad_formula (cl : MontecarloCliente) (c1 c2 x : ℚ) :
    cl.calcular_utilidad c1 c2 x =
      (cl.costos.precio_venta - c1 - c2) * x -
        (cl.costos.costo_admin + cl.costos.costo_publicidad) := rfl

/-- C2: for N requested trials the consumer, fed through the shared queue by
the producer, accumulates exactly N profit values — `utilidades` has length
N once `consumir` finishes. -/
theorem consumidor_acumula_N (srv : MontecarloServidor) (costos : CostFlyweight)
    (r : RandomState) (n : ℕ) :
    ((MontecarloCliente.nuevo srv costos).consumir
        (srv.hilo_productor r [] (n : ℤ)).2).utilidades.length = n := by
  have hcola : (srv.hilo_productor r [] (n : ℤ)).2 =
      (muestrasDesde srv n r).map some ++ none :: [] := by
    simp [MontecarloServidor.hilo_productor, productorLoop_eq]
  simp only [MontecarloCliente.nuevo]
  rw [hcola, consumir_map_some]
  simp [muestrasDesde_length]

/-- C3: on an initially empty queue, `hilo_productor` pushes exactly N sample
messages in generation order followed by exactly one `None` sentinel, for
every N ≥ 0 (for N = 0 only the sentinel is pushed). -/
theorem hilo_productor_contenido (srv : MontecarloServidor) (r : RandomState) (n : ℕ) :
    (srv.hilo_productor r [] (n : ℤ)).2 = (muestrasDesde srv n r).map some ++ [none] ∧
      (muestrasDesde srv n r).length = n ∧
      ((srv.hilo_productor r [] (n : ℤ)).2).count none = 1 := by
  have hcola : (srv.hilo_productor r [] (n : ℤ)).2 =
      (muestrasDesde srv n r).map some ++ [none] := by
    simp [MontecarloServidor.hilo_productor, productorLoop_eq]
  refine ⟨hcola, muestrasDesde_length srv n r, ?_⟩
  rw [hcola, List.count_append]
  have hnone : ((muestrasDesde srv n r).map some).count (none : Mensaje) = 0 := by
    apply List.count_eq_zero.mpr
    simp
  rw [hnone]
  rfl

/-- C4: `generar_x` on the server built by `__init__` always lands in
[9000, 28500]; a raw normal draw below 9000 is mapped to exactly 9000 and a
raw draw above 28500 to exactly 28500 (clamping of the single draw). -/
theorem generar_x_clampea (r : RandomState) :
    9000 ≤ (MontecarloServidor.nuevo.generar_x r).1 ∧
      (MontecarloServidor.nuevo.generar_x r).1 ≤ 28500 ∧
      (r.src.x_raw r.x_calls < 9000 → (MontecarloServidor.nuevo.generar_x r).1 = 9000) ∧
      (28500 < r.src.x_raw r.x_calls → (MontecarloServidor.nuevo.generar_x r).1 = 28500) := by
  have hx : (MontecarloServidor.nuevo.generar_x r).1 =
      min (max (r.src.x_raw r.x_calls) 9000) 28500 := rfl
  refine ⟨?_, ?_, ?_, ?_⟩ <;> rw [hx]
  · exact le_min (le_max_right _ _) (by norm_num)
  · exact min_le_right _ _
  · intro h
    rw [max_eq_right h.le, min_eq_left (by norm_num)]
  · intro h
    rw [max_eq_left (le_of_lt (lt_trans (by norm_num) h)), min_eq_right h.le]

/-- C4 witness: with an injected deterministic source whose raw normal draw
is 0 (far below 9000), `generar_x` returns exactly 9000. -/
theorem generar_x_clampea_witness :
    (MontecarloServidor.nuevo.generar_x
        ⟨⟨fun _ => 0, fun _ => 0, fun _ => 0⟩, 0, 0, 0⟩).1 = 9000 :=
  (generar_x_clampea ⟨⟨fun _ => 0, fun _ => 0, fun _ => 0⟩, 0, 0, 0⟩).2.2.1 (by norm_num)

/-- C5: starting from a freshly constructed client, the sequential runner
(modelled from the spec, since `MontecarloCliente.ejecutar_simulacion` —
called by `montecarloScenarys.ejecutar_simulacion` — is absent from the
sources) and the concurrent producer/consumer runner consume the same
samples in the same generation order and return the identical
{min, max, mean} summary, identical accumulated utilities and identical
final random state. -/
theorem secuencial_equivale_concurrente (srv : MontecarloServidor)
    (costos : CostFlyweight) (r : RandomState) (iteraciones : ℤ) :
    (MontecarloCliente.nuevo srv costos).ejecutar_simulacion r iteraciones =
      (MontecarloCliente.nuevo srv costos).ejecutar_simulacion_concurrente r iteraciones := by
  have hq := productorLoop_eq srv iteraciones.toNat r []
  have hs := secuencialLoop_eq srv costos [] iteraciones.toNat r []
  simp only [MontecarloCliente.nuevo] at hs ⊢
  simp [MontecarloCliente.ejecutar_simulacion, MontecarloCliente.ejecutar_simulacion_concurrente,
    MontecarloServidor.hilo_productor, hq, hs, consumir_map_some]

/-- C6: for the fixed costs (70000, 160000000, 80000000) and the sample
(13000, 30000, 14500) the profit formula gives
(70000 - 13000 - 30000) * 14500 - 240000000 = 151500000, so the value
161500000 stated by the claim is refuted at this very input. -/
theorem calcular_utilidad_caso_concreto_no_161500000 :
    ¬ (MontecarloCliente.nuevo MontecarloServidor.nuevo
        ⟨70000, 160000000, 80000000⟩).calcular_utilidad 13000 30000 14500 = 161500000 := by
  norm_num [MontecarloCliente.calcular_utilidad, MontecarloCliente.nuevo]

/-- C6 (amended): for the fixed costs (70000, 160000000, 80000000) and the
sample (13000, 30000, 14500), `calcular_utilidad` returns exactly
(70000 - 13000 - 30000) * 14500 - 240000000 = 151500000, and this is exact
in the rational embedding. -/
theorem calcular_utilidad_caso_concreto :
    (MontecarloCliente.nuevo MontecarloServidor.nuevo
        ⟨70000, 160000000, 80000000⟩).calcular_utilidad 13000 30000 14500 =
      (70000 - 13000 - 30000) * 14500 - 240000000 ∧
      ((70000 : ℚ) - 13000 - 30000) * 14500 - 240000000 = 151500000 := by
  constructor
  · norm_num [MontecarloCliente.calcular_utilidad, MontecarloCliente.nuevo]
  · norm_num

/-- C7: with zero requested trials the run returns the zero-filled summary
{min: 0, max: 0, mean: 0} instead of failing, in the concurrent mode and in
the (spec-modelled) sequential mode alike. -/
theorem simulacion_cero_trials (srv : MontecarloServidor) (costos : CostFlyweight)
    (r : RandomState) :
    ((MontecarloCliente.nuevo srv costos).ejecutar_simulacion_concurrente r 0).1 =
        ⟨0, 0, 0⟩ ∧
      ((MontecarloCliente.nuevo srv costos).ejecutar_simulacion r 0).1 = ⟨0, 0, 0⟩ := by
  constructor <;> rfl

/-- C8 counterexample: at the concrete trial count -1 the concurrent run
does not fail fast — it silently completes with zero accumulated trials and
the zero-filled summary, because Python's `range(-1)` is empty and no
validation exists anywhere on the path. -/
theorem simulacion_negativa_no_falla :
    ((MontecarloCliente.nuevo MontecarloServidor.nuevo
          ⟨70000, 160000000, 80000000⟩).ejecutar_simulacion_concurrente
        ⟨⟨fun _ => 0, fun _ => 0, fun _ => 0⟩, 0, 0, 0⟩ (-1)).1 = ⟨0, 0, 0⟩ ∧
      ((MontecarloCliente.nuevo MontecarloServidor.nuevo
          ⟨70000, 160000000, 80000000⟩).ejecutar_simulacion_concurrente
        ⟨⟨fun _ => 0, fun _ => 0, fun _ => 0⟩, 0, 0, 0⟩ (-1)).2.1.utilidades.length = 0 := by
  constructor <;> rfl

/-- C8 (amended): for every negative trial count the run completes normally
with zero trials and the zero-filled summary {min: 0, max: 0, mean: 0}: the
producer's `range(iteraciones)` is empty for negative counts, so the run is
indistinguishable from N = 0 and no error is ever raised. -/
theorem simulacion_negativa_resumen_cero (srv : MontecarloServidor)
    (costos : CostFlyweight) (r : RandomState) (n : ℤ) (h : n < 0) :
    ((MontecarloCliente.nuevo srv costos).ejecutar_simulacion_concurrente r n).1 =
      ⟨0, 0, 0⟩ := by
  have hn : n.toNat = 0 := Int.toNat_of_nonpos h.le
  simp [MontecarloCliente.ejecutar_simulacion_concurrente, MontecarloServidor.hilo_productor,
    hn, productorLoop, MontecarloCliente.nuevo, MontecarloCliente.consumir, resumenDe]

/-- C8 witness: the amended statement applied at trial count -2. -/
theorem simulacion_negativa_resumen_cero_witness :
    ((MontecarloCliente.nuevo MontecarloServidor.nuevo
          ⟨70000, 160000000, 80000000⟩).ejecutar_simulacion_concurrente
        ⟨⟨fun _ => 0, fun _ => 0, fun _ => 0⟩, 0, 0, 0⟩ (-2)).1 = ⟨0, 0, 0⟩ :=
  simulacion_negativa_resumen_cero MontecarloServidor.nuevo ⟨70000, 160000000, 80000000⟩
    ⟨⟨fun _ => 0, fun _ => 0, fun _ => 0⟩, 0, 0, 0⟩ (-2) (by norm_num)

/-- Coherence of the factory's storage: every stored flyweight carries
exactly the three components of its own key.  It holds for the empty
factory and is preserved by `get_flyweight`. -/
def FactoriaCoherente (f : FlyweightFactory) : Prop :=
  ∀ e ∈ f.flyweights, e.2 = ⟨e.1.1, e.1.2.1, e.1.2.2⟩

theorem buscarClave_coherente (l : List ((ℚ × ℚ × ℚ) × CostFlyweight))
    (h : ∀ e ∈ l, e.2 = ⟨e.1.1, e.1.2.1, e.1.2.2⟩) (k : ℚ × ℚ × ℚ) (fw : CostFlyweight)
    (hb : buscarClave l k = some fw) : fw = ⟨k.1, k.2.1, k.2.2⟩ := by
  induction l with
  | nil => simp [buscarClave] at hb
  | cons e t ih =>
      rcases e with ⟨k0, fw0⟩
      by_cases hk : k0 = k
      · rw [buscarClave, if_pos hk] at hb
        have he := h (k0, fw0) (by simp)
        subst hk
        cases hb
        exact he
      · rw [buscarClave, if_neg hk] at hb
        exact ih (fun e he => h e (List.mem_cons_of_mem _ he)) hb

theorem buscarClave_append (l1 l2 : List ((ℚ × ℚ × ℚ) × CostFlyweight)) (k : ℚ × ℚ × ℚ)
    (h : buscarClave l1 k = none) :
    buscarClave (l1 ++ l2) k = buscarClave l2 k := by
  induction l1 with
  | nil => rfl
  | cons e t ih =>
      rcases e with ⟨k0, fw0⟩
      by_cases hk : k0 = k
      · rw [buscarClave, if_pos hk] at h
        exact absurd h (by simp)
      · rw [buscarClave, if_neg hk] at h
        rw [List.cons_append, buscarClave, if_neg hk]
        exact ih h

/-- C9: the flyweight lookup is idempotent on every coherent factory (in
particular on every factory grown from `__init__`'s empty storage): two
`get_flyweight` calls with the same argument triple return value-equal
`CostFlyweight` records, and the returned record stores the three arguments
unchanged in its fields. -/
theorem get_flyweight_idempotente (f : FlyweightFactory) (hf : FactoriaCoherente f)
    (pv ca cp : ℚ) :
    ((f.get_flyweight pv ca cp).2.get_flyweight pv ca cp).1 =
        (f.get_flyweight pv ca cp).1 ∧
      (f.get_flyweight pv ca cp).1 = ⟨pv, ca, cp⟩ := by
  rcases hb : buscarClave f.flyweights (pv, ca, cp) with _ | fw
  · have h1 : f.get_flyweight pv ca cp =
        (⟨pv, ca, cp⟩, ⟨f.flyweights ++ [((pv, ca, cp), ⟨pv, ca, cp⟩)]⟩) := by
      simp [FlyweightFactory.get_flyweight, hb]
    have h2 : buscarClave (f.flyweights ++ [((pv, ca, cp), ⟨pv, ca, cp⟩)]) (pv, ca, cp) =
        some ⟨pv, ca, cp⟩ := by
      rw [buscarClave_append _ _ _ hb, buscarClave, if_pos rfl]
    rw [h1]
    exact ⟨by simp [FlyweightFactory.get_flyweight, h2], rfl⟩
  · have hfw : fw = ⟨pv, ca, cp⟩ := buscarClave_coherente f.flyweights hf (pv, ca, cp) fw hb
    have h1 : f.get_flyweight pv ca cp = (fw, f) := by
      simp [FlyweightFactory.get_flyweight, hb]
    rw [h1]
    exact ⟨by simp [FlyweightFactory.get_flyweight, hb], hfw⟩

/-- C9 witness: the idempotence theorem applied to `__init__`'s empty
factory at the entry point's three fixed-cost values. -/
theorem get_flyweight_idempotente_witness :
    ((FlyweightFactory.nuevo.get_flyweight 70000 160000000 80000000).2.get_flyweight
          70000 160000000 80000000).1 =
        (FlyweightFactory.nuevo.get_flyweight 70000 160000000 80000000).1 ∧
      (FlyweightFactory.nuevo.get_flyweight 70000 160000000 80000000).1 =
        ⟨70000, 160000000, 80000000⟩ :=
  get_flyweight_idempotente FlyweightFactory.nuevo
    (by intro e he; simp [FlyweightFactory.nuevo] at he) 70000 160000000 80000000

/-- C10: `montecarloCliente.main` raises `TypeError` while binding the
keyword arguments of its `get_flyweight` call — `pv` is not among the
parameter names `precio_venta`, `costo_admin`, `costo_publicidad` — so for
every random source the modelled entry point yields the `typeError` outcome
and never the `ok` outcome of a completed simulation. -/
theorem main_lanza_typeerror (r : RandomState) :
    mainCliente r = ResultadoMain.typeError "pv" := rfl
